import Mathlib

/-!
Verification of the client-side secret-protection subsystem of Heart-Trace
(`src/lib/storage.ts` — `BuiltinKeyDecryptor`, `src/lib/security/cryptoUtils.ts`
— `CryptoUtils`, `src/lib/security/antiDebug.ts` — `AntiDebug`).

JavaScript strings are modelled as lists of natural-number code units
(`List Nat`); `btoa`/`atob` are modelled by the WHATWG base64 /
forgiving-base64 algorithms that browsers implement.
-/

set_option autoImplicit false

namespace HeartTrace

/-! ## Base64 model (WHATWG `btoa` / forgiving-base64 `atob`) -/

/-- The code unit of the base64 alphabet character for a 6-bit value
(`A`–`Z`, `a`–`z`, `0`–`9`, `+`, `/`). -/
def b64Char (n : Nat) : Nat :=
  if n < 26 then 65 + n
  else if n < 52 then 97 + (n - 26)
  else if n < 62 then 48 + (n - 52)
  else if n = 62 then 43
  else 47

/-- The 6-bit value of a base64 alphabet code unit, `none` outside the alphabet
(notably for the padding character `=`, code 61). -/
def b64Value (c : Nat) : Option Nat :=
  if 65 ≤ c ∧ c ≤ 90 then some (c - 65)
  else if 97 ≤ c ∧ c ≤ 122 then some (c - 97 + 26)
  else if 48 ≤ c ∧ c ≤ 57 then some (c - 48 + 52)
  else if c = 43 then some 62
  else if c = 47 then some 63
  else none

/-- ASCII whitespace, which forgiving-base64 decoding removes first. -/
def isWS (c : Nat) : Bool :=
  c = 9 || c = 10 || c = 12 || c = 13 || c = 32

/-- Base64 encoding of a byte list, three bytes to four characters, with
`=` (code 61) padding — the output of `btoa`. -/
def encodeChunks : List Nat → List Nat
  | [] => []
  | [b1] => [b64Char (b1 / 4), b64Char (b1 % 4 * 16), 61, 61]
  | [b1, b2] => [b64Char (b1 / 4), b64Char (b1 % 4 * 16 + b2 / 16),
      b64Char (b2 % 16 * 4), 61]
  | b1 :: b2 :: b3 :: rest =>
      b64Char (b1 / 4) :: b64Char (b1 % 4 * 16 + b2 / 16) ::
      b64Char (b2 % 16 * 4 + b3 / 64) :: b64Char (b3 % 64) :: encodeChunks rest

/-- `encodeChunks` without the padding characters. -/
def encBody : List Nat → List Nat
  | [] => []
  | [b1] => [b64Char (b1 / 4), b64Char (b1 % 4 * 16)]
  | [b1, b2] => [b64Char (b1 / 4), b64Char (b1 % 4 * 16 + b2 / 16),
      b64Char (b2 % 16 * 4)]
  | b1 :: b2 :: b3 :: rest =>
      b64Char (b1 / 4) :: b64Char (b1 % 4 * 16 + b2 / 16) ::
      b64Char (b2 % 16 * 4 + b3 / 64) :: b64Char (b3 % 64) :: encBody rest

/-- Number of `=` padding characters `encodeChunks` appends. -/
def padLen : List Nat → Nat
  | [] => 0
  | [_] => 2
  | [_, _] => 1
  | _ :: _ :: _ :: rest => padLen rest

/-- JavaScript `btoa`: base64-encode a binary string; throws (`none`) if any
code unit exceeds 255. -/
def btoaJS (l : List Nat) : Option (List Nat) :=
  if ∀ b ∈ l, b < 256 then some (encodeChunks l) else none

/-- Step 2 of forgiving-base64 decoding, specialised to inputs whose length is
a multiple of four (the only case in which `atobJS` invokes it): remove one or
two trailing `=` characters. -/
def stripPad4 : List Nat → List Nat
  | c1 :: c2 :: c3 :: c4 :: rest =>
      if rest = [] then
        if c3 = 61 ∧ c4 = 61 then [c1, c2]
        else if c4 = 61 then [c1, c2, c3]
        else [c1, c2, c3, c4]
      else c1 :: c2 :: c3 :: c4 :: stripPad4 rest
  | l => l

/-- Steps 4–9 of forgiving-base64 decoding: map characters through the base64
alphabet (failing on any character outside it, including leftover `=`) and
reassemble bytes; a trailing group of one character is a failure, trailing
groups of two or three characters contribute one or two bytes. -/
def decodeGroups : List Nat → Option (List Nat)
  | [] => some []
  | [_] => none
  | [c1, c2] =>
      match b64Value c1, b64Value c2 with
      | some v1, some v2 => some [v1 * 4 + v2 / 16]
      | _, _ => none
  | [c1, c2, c3] =>
      match b64Value c1, b64Value c2, b64Value c3 with
      | some v1, some v2, some v3 => some [v1 * 4 + v2 / 16, v2 % 16 * 16 + v3 / 4]
      | _, _, _ => none
  | c1 :: c2 :: c3 :: c4 :: rest =>
      match b64Value c1, b64Value c2, b64Value c3, b64Value c4, decodeGroups rest with
      | some v1, some v2, some v3, some v4, some r =>
          some ((v1 * 4 + v2 / 16) :: (v2 % 16 * 16 + v3 / 4) :: (v3 % 4 * 64 + v4) :: r)
      | _, _, _, _, _ => none

/-- JavaScript `atob`: WHATWG forgiving-base64 decode — strip ASCII
whitespace, strip up to two trailing `=` when the length is a multiple of
four, then decode, failing (`none`, the thrown `InvalidCharacterError`) on any
character outside the alphabet or on a trailing group of one character. -/
def atobJS (l : List Nat) : Option (List Nat) :=
  let cleaned := l.filter (fun c => !isWS c)
  let body := if cleaned.length % 4 = 0 then stripPad4 cleaned else cleaned
  decodeGroups body


/-! ## Base64 round-trip -/

theorem b64Char_ne_pad (n : Nat) : b64Char n ≠ 61 := by
  unfold b64Char
  split <;> try split <;> try split <;> try split
  all_goals omega

theorem b64Char_not_ws (n : Nat) : isWS (b64Char n) = false := by
  unfold b64Char isWS
  split <;> try split <;> try split <;> try split
  all_goals simp <;> omega

theorem b64Char_lt_256 (n : Nat) : b64Char n < 256 := by
  unfold b64Char
  split <;> try split <;> try split <;> try split
  all_goals omega

theorem b64Value_b64Char : ∀ n < 64, b64Value (b64Char n) = some n := by decide

theorem encodeChunks_mem (l : List Nat) (c : Nat) (hc : c ∈ encodeChunks l) :
    c = 61 ∨ ∃ v, c = b64Char v := by
  induction l using encodeChunks.induct with
  | case1 => simp [encodeChunks] at hc
  | case2 b1 =>
    simp only [encodeChunks, List.mem_cons, List.not_mem_nil, or_false] at hc
    rcases hc with h | h | h | h
    · exact Or.inr ⟨b1 / 4, h⟩
    · exact Or.inr ⟨b1 % 4 * 16, h⟩
    · exact Or.inl h
    · exact Or.inl h
  | case3 b1 b2 =>
    simp only [encodeChunks, List.mem_cons, List.not_mem_nil, or_false] at hc
    rcases hc with h | h | h | h
    · exact Or.inr ⟨b1 / 4, h⟩
    · exact Or.inr ⟨b1 % 4 * 16 + b2 / 16, h⟩
    · exact Or.inr ⟨b2 % 16 * 4, h⟩
    · exact Or.inl h
  | case4 b1 b2 b3 rest ih =>
    simp only [encodeChunks, List.mem_cons] at hc
    rcases hc with h | h | h | h | h
    · exact Or.inr ⟨b1 / 4, h⟩
    · exact Or.inr ⟨b1 % 4 * 16 + b2 / 16, h⟩
    · exact Or.inr ⟨b2 % 16 * 4 + b3 / 64, h⟩
    · exact Or.inr ⟨b3 % 64, h⟩
    · exact ih h

theorem encodeChunks_not_ws (l : List Nat) (c : Nat) (hc : c ∈ encodeChunks l) :
    isWS c = false := by
  rcases encodeChunks_mem l c hc with h | ⟨v, h⟩
  · subst h; decide
  · subst h; exact b64Char_not_ws v

theorem encodeChunks_lt_256 (l : List Nat) (c : Nat) (hc : c ∈ encodeChunks l) :
    c < 256 := by
  rcases encodeChunks_mem l c hc with h | ⟨v, h⟩
  · omega
  · subst h; exact b64Char_lt_256 v

theorem encodeChunks_filter_ws (l : List Nat) :
    (encodeChunks l).filter (fun c => !isWS c) = encodeChunks l := by
  rw [List.filter_eq_self]
  intro c hc
  simp [encodeChunks_not_ws l c hc]

theorem encodeChunks_length_mod4 (l : List Nat) : (encodeChunks l).length % 4 = 0 := by
  induction l using encodeChunks.induct with
  | case1 => simp [encodeChunks]
  | case2 b1 => simp [encodeChunks]
  | case3 b1 b2 => simp [encodeChunks]
  | case4 b1 b2 b3 rest ih => simp only [encodeChunks, List.length_cons]; omega

theorem stripPad4_pad2 (c1 c2 : Nat) : stripPad4 [c1, c2, 61, 61] = [c1, c2] := by
  simp [stripPad4]

theorem stripPad4_pad1 (c1 c2 c3 : Nat) (h3 : c3 ≠ 61) :
    stripPad4 [c1, c2, c3, 61] = [c1, c2, c3] := by
  simp [stripPad4, h3]

theorem stripPad4_cons4 (c1 c2 c3 c4 : Nat) (t : List Nat)
    (h3 : c3 ≠ 61) (h4 : c4 ≠ 61) :
    stripPad4 (c1 :: c2 :: c3 :: c4 :: t) = c1 :: c2 :: c3 :: c4 :: stripPad4 t := by
  cases t with
  | nil => simp [stripPad4, h3, h4]
  | cons x xs => simp [stripPad4]

theorem decodeGroups_stripPad_encodeChunks (l : List Nat) (h : ∀ b ∈ l, b < 256) :
    decodeGroups (stripPad4 (encodeChunks l)) = some l := by
  induction l using encodeChunks.induct with
  | case1 => rfl
  | case2 b1 =>
    have hb : b1 < 256 := h b1 (by simp)
    have h1 : b1 / 4 < 64 := by omega
    have h2 : b1 % 4 * 16 < 64 := by omega
    simp only [encodeChunks]
    rw [stripPad4_pad2]
    simp only [decodeGroups, b64Value_b64Char _ h1, b64Value_b64Char _ h2]
    congr 2
    omega
  | case3 b1 b2 =>
    have hb1 : b1 < 256 := h b1 (by simp)
    have hb2 : b2 < 256 := h b2 (by simp)
    have h1 : b1 / 4 < 64 := by omega
    have h2 : b1 % 4 * 16 + b2 / 16 < 64 := by omega
    have h3 : b2 % 16 * 4 < 64 := by omega
    simp only [encodeChunks]
    rw [stripPad4_pad1 _ _ _ (b64Char_ne_pad _)]
    simp only [decodeGroups, b64Value_b64Char _ h1, b64Value_b64Char _ h2,
      b64Value_b64Char _ h3]
    have e1 : b1 / 4 * 4 + (b1 % 4 * 16 + b2 / 16) / 16 = b1 := by omega
    have e2 : (b1 % 4 * 16 + b2 / 16) % 16 * 16 + b2 % 16 * 4 / 4 = b2 := by omega
    rw [e1, e2]
  | case4 b1 b2 b3 rest ih =>
    have hb1 : b1 < 256 := h b1 (by simp)
    have hb2 : b2 < 256 := h b2 (by simp)
    have hb3 : b3 < 256 := h b3 (by simp)
    have h1 : b1 / 4 < 64 := by omega
    have h2 : b1 % 4 * 16 + b2 / 16 < 64 := by omega
    have h3 : b2 % 16 * 4 + b3 / 64 < 64 := by omega
    have h4 : b3 % 64 < 64 := by omega
    have ih2 := ih (fun b hb => h b (by simp [hb]))
    simp only [encodeChunks]
    rw [stripPad4_cons4 _ _ _ _ _ (b64Char_ne_pad _) (b64Char_ne_pad _)]
    simp only [decodeGroups, b64Value_b64Char _ h1, b64Value_b64Char _ h2,
      b64Value_b64Char _ h3, b64Value_b64Char _ h4, ih2]
    have e1 : b1 / 4 * 4 + (b1 % 4 * 16 + b2 / 16) / 16 = b1 := by omega
    have e2 : (b1 % 4 * 16 + b2 / 16) % 16 * 16 + (b2 % 16 * 4 + b3 / 64) / 4 = b2 := by
      omega
    have e3 : (b2 % 16 * 4 + b3 / 64) % 4 * 64 + b3 % 64 = b3 := by omega
    rw [e1, e2, e3]

/-- `atob` inverts `btoa`: forgiving-base64 decoding of the base64 encoding of
any byte list recovers the bytes. -/
theorem atobJS_encodeChunks (l : List Nat) (h : ∀ b ∈ l, b < 256) :
    atobJS (encodeChunks l) = some l := by
  unfold atobJS
  simp only [encodeChunks_filter_ws, encodeChunks_length_mod4, if_pos]
  exact decodeGroups_stripPad_encodeChunks l h

theorem encodeChunks_eq_body_pad (l : List Nat) :
    encodeChunks l = encBody l ++ List.replicate (padLen l) 61 := by
  induction l using encodeChunks.induct with
  | case1 => rfl
  | case2 b1 => rfl
  | case3 b1 b2 => rfl
  | case4 b1 b2 b3 rest ih => simp [encodeChunks, encBody, padLen, ih]

theorem encBody_mem (l : List Nat) (c : Nat) (hc : c ∈ encBody l) :
    ∃ v, c = b64Char v := by
  induction l using encBody.induct with
  | case1 => simp [encBody] at hc
  | case2 b1 =>
    simp only [encBody, List.mem_cons, List.not_mem_nil, or_false] at hc
    rcases hc with h | h
    · exact ⟨b1 / 4, h⟩
    · exact ⟨b1 % 4 * 16, h⟩
  | case3 b1 b2 =>
    simp only [encBody, List.mem_cons, List.not_mem_nil, or_false] at hc
    rcases hc with h | h | h
    · exact ⟨b1 / 4, h⟩
    · exact ⟨b1 % 4 * 16 + b2 / 16, h⟩
    · exact ⟨b2 % 16 * 4, h⟩
  | case4 b1 b2 b3 rest ih =>
    simp only [encBody, List.mem_cons] at hc
    rcases hc with h | h | h | h | h
    · exact ⟨b1 / 4, h⟩
    · exact ⟨b1 % 4 * 16 + b2 / 16, h⟩
    · exact ⟨b2 % 16 * 4 + b3 / 64, h⟩
    · exact ⟨b3 % 64, h⟩
    · exact ih h

theorem padLen_le_two (l : List Nat) : padLen l ≤ 2 := by
  induction l using padLen.induct with
  | case1 => simp [padLen]
  | case2 b1 => simp [padLen]
  | case3 b1 b2 => simp [padLen]
  | case4 b1 b2 b3 rest ih => simpa [padLen] using ih

theorem encBody_length_add_pad (l : List Nat) :
    (encBody l).length + padLen l = (encodeChunks l).length := by
  rw [encodeChunks_eq_body_pad]
  simp

/-! ## `CryptoUtils` (src/lib/security/cryptoUtils.ts) -/

/-- `CryptoUtils.obfuscate` (cryptoUtils.ts:187-189):
`btoa(str.split('').reverse().join('')).replace(/[+\/=]/g, '')` — reverse the
string, base64-encode it, then delete every `+` (43), `/` (47) and `=` (61)
character. `none` models the `btoa` exception on non-latin1 input. -/
def obfuscate (s : List Nat) : Option (List Nat) :=
  (btoaJS s.reverse).map (List.filter (fun c => !(c = 43 || c = 47 || c = 61)))

/-- `CryptoUtils.deobfuscate` (cryptoUtils.ts:194-201): re-pad with
`'=='.slice(0, (4 - str.length % 4) % 4)` — at most two `=` even when the
formula asks for three — then `atob` and reverse; a decode failure is mapped
to a thrown error (`none`). -/
def deobfuscate (s : List Nat) : Option (List Nat) :=
  let padded := s ++ List.replicate (min ((4 - s.length % 4) % 4) 2) 61
  (atobJS padded).map List.reverse

theorem obfuscate_eq (s : List Nat) (hlt : ∀ b ∈ s, b < 256) :
    obfuscate s =
      some ((encodeChunks s.reverse).filter (fun c => !(c = 43 || c = 47 || c = 61))) := by
  unfold obfuscate btoaJS
  rw [if_pos (fun b hb => hlt b (List.mem_reverse.mp hb))]
  rfl

theorem filter_strip_encodeChunks (l : List Nat)
    (hp : ∀ c ∈ encodeChunks l, c ≠ 43 ∧ c ≠ 47) :
    (encodeChunks l).filter (fun c => !(c = 43 || c = 47 || c = 61)) = encBody l := by
  rw [encodeChunks_eq_body_pad l, List.filter_append]
  have h1 : (encBody l).filter (fun c => !(c = 43 || c = 47 || c = 61)) = encBody l := by
    rw [List.filter_eq_self]
    intro c hc
    have hmem : c ∈ encodeChunks l := by
      rw [encodeChunks_eq_body_pad l]
      exact List.mem_append_left _ hc
    obtain ⟨v, hv⟩ := encBody_mem l c hc
    have h61 : c ≠ 61 := hv ▸ b64Char_ne_pad v
    have h43 := (hp c hmem).1
    have h47 := (hp c hmem).2
    simp [h61, h43, h47]
  have h2 : (List.replicate (padLen l) 61).filter
      (fun c => !((c : Nat) = 43 || c = 47 || c = 61)) = [] := by
    simp [List.filter_replicate]
  rw [h1, h2, List.append_nil]

theorem deobfuscate_encBody (l : List Nat) (h : ∀ b ∈ l, b < 256) :
    deobfuscate (encBody l) = some l.reverse := by
  unfold deobfuscate
  have hpc : min ((4 - (encBody l).length % 4) % 4) 2 = padLen l := by
    have h1 := encBody_length_add_pad l
    have h2 := encodeChunks_length_mod4 l
    have h3 := padLen_le_two l
    omega
  rw [hpc, ← encodeChunks_eq_body_pad]
  show Option.map List.reverse (atobJS (encodeChunks l)) = some l.reverse
  rw [atobJS_encodeChunks l h]
  rfl

/-- `CryptoUtils.generateSalt` (cryptoUtils.ts:53-55):
`crypto.getRandomValues(new Uint8Array(length))` with default length 32,
drawing bytes from the platform CSPRNG (modelled as an entropy stream). -/
def generateSalt (entropy : Nat → Nat) (length : Nat) : List Nat :=
  (List.range length).map (fun i => entropy i % 256)

theorem generateSalt_length (entropy : Nat → Nat) (n : Nat) :
    (generateSalt entropy n).length = n := by
  simp [generateSalt]

/-- `SECURITY_CONSTANTS.KEY_DERIVATION.ITERATIONS` (security/index.ts). -/
def KEY_DERIVATION_ITERATIONS : Nat := 100000

/-- A derived AES-GCM `CryptoKey` is an opaque handle; it is modelled by the
inputs of its PBKDF2 derivation (`CryptoUtils.deriveKey`, cryptoUtils.ts:22-48).
The idealisation is that PBKDF2-SHA256 is collision-free on distinct
(password, salt, iterations) triples. -/
structure DeviceKeyT where
  fingerprint : List Nat
  salt : List Nat
  iterations : Nat
deriving DecidableEq

/-- `CryptoUtils.deriveKey` (cryptoUtils.ts:22-48): PBKDF2-SHA256 from the
password (device fingerprint) and salt, producing an AES-GCM-256 key. -/
def deriveKey (password : List Nat) (salt : List Nat) (iterations : Nat) : DeviceKeyT :=
  ⟨password, salt, iterations⟩

/-- Idealised AES-GCM ciphertext: authenticated encryption is modelled as a
container remembering its key, IV and plaintext; decryption verifies the tag,
i.e. succeeds exactly under the original key and IV (spec §4.2: `decrypt`
fails if the authentication tag does not verify). -/
structure AeadCiphertext where
  key : DeviceKeyT
  iv : List Nat
  plaintext : List Nat
deriving DecidableEq

/-- Idealised `CryptoUtils.encrypt` (cryptoUtils.ts:67-91). -/
def aesGcmEncrypt (plaintext : List Nat) (key : DeviceKeyT) (iv : List Nat) :
    AeadCiphertext :=
  ⟨key, iv, plaintext⟩

/-- Idealised `CryptoUtils.decrypt` (cryptoUtils.ts:96-112): authentication
fails (throws, `none`) under any key or IV other than the encrypting ones. -/
def aesGcmDecrypt (c : AeadCiphertext) (key : DeviceKeyT) (iv : List Nat) :
    Option (List Nat) :=
  if c.key = key ∧ c.iv = iv then some c.plaintext else none

/-! ## JavaScript `Map` model

A JS `Map` is an insertion-ordered association list with unique keys:
`set` on a present key updates the value in place keeping its position,
otherwise appends; `keys().next().value` is the first key in insertion
order; `get` reads; `delete` removes. -/

section JsMap

variable {β : Type}

def mapGet : List (String × β) → String → Option β
  | [], _ => none
  | (k', v') :: rest, k => if k' = k then some v' else mapGet rest k

def mapSet : List (String × β) → String → β → List (String × β)
  | [], k, v => [(k, v)]
  | (k', v') :: rest, k, v =>
      if k' = k then (k', v) :: rest else (k', v') :: mapSet rest k v

def mapDelete : List (String × β) → String → List (String × β)
  | [], _ => []
  | (k', v') :: rest, k => if k' = k then rest else (k', v') :: mapDelete rest k

theorem mapGet_mapSet_self (m : List (String × β)) (k : String) (v : β) :
    mapGet (mapSet m k v) k = some v := by
  induction m with
  | nil => simp [mapSet, mapGet]
  | cons p rest ih =>
    obtain ⟨k', v'⟩ := p
    by_cases h : k' = k
    · simp [mapSet, mapGet, h]
    · simp [mapSet, mapGet, h, ih]

theorem mapSet_length_le (m : List (String × β)) (k : String) (v : β) :
    (mapSet m k v).length ≤ m.length + 1 := by
  induction m with
  | nil => simp [mapSet]
  | cons p rest ih =>
    obtain ⟨k', v'⟩ := p
    by_cases h : k' = k
    · simp [mapSet, h]
    · simp only [mapSet, if_neg h, List.length_cons]
      omega

theorem mapDelete_sublist (m : List (String × β)) (k : String) :
    List.Sublist (mapDelete m k) m := by
  induction m with
  | nil => simp [mapDelete]
  | cons p rest ih =>
    obtain ⟨k', v'⟩ := p
    by_cases h : k' = k
    · simp only [mapDelete, if_pos h]
      exact List.sublist_cons_self _ _
    · simp only [mapDelete, if_neg h]
      exact List.Sublist.cons₂ _ ih

theorem mapSet_mem_keys (m : List (String × β)) (k : String) (v : β) (a : String)
    (ha : a ∈ (mapSet m k v).map Prod.fst) : a ∈ m.map Prod.fst ∨ a = k := by
  induction m with
  | nil => simpa [mapSet] using ha
  | cons p rest ih =>
    obtain ⟨k', v'⟩ := p
    by_cases h : k' = k
    · simp only [mapSet, if_pos h] at ha
      exact Or.inl (by simpa using ha)
    · simp only [mapSet, if_neg h, List.map_cons, List.mem_cons] at ha ⊢
      rcases ha with ha | ha
      · exact Or.inl (Or.inl ha)
      · rcases ih ha with hm | hk
        · exact Or.inl (Or.inr hm)
        · exact Or.inr hk

theorem mapSet_nodup_keys (m : List (String × β)) (k : String) (v : β)
    (hn : (m.map Prod.fst).Nodup) : ((mapSet m k v).map Prod.fst).Nodup := by
  induction m with
  | nil => simp [mapSet]
  | cons p rest ih =>
    obtain ⟨k', v'⟩ := p
    simp only [List.map_cons, List.nodup_cons] at hn
    by_cases h : k' = k
    · simp only [mapSet, if_pos h, List.map_cons, List.nodup_cons]
      exact hn
    · simp only [mapSet, if_neg h, List.map_cons, List.nodup_cons]
      refine ⟨fun hmem => ?_, ih hn.2⟩
      rcases mapSet_mem_keys rest k v k' hmem with hm | hk
      · exact hn.1 hm
      · exact h hk

theorem mapGet_eq_none_of_not_mem (m : List (String × β)) (k : String)
    (h : k ∉ m.map Prod.fst) : mapGet m k = none := by
  induction m with
  | nil => rfl
  | cons p rest ih =>
    obtain ⟨k', v'⟩ := p
    simp only [List.map_cons, List.mem_cons] at h
    push_neg at h
    simp only [mapGet]
    rw [if_neg (fun hh => h.1 hh.symm)]
    exact ih h.2

theorem mapGet_mapDelete_self (m : List (String × β)) (k : String)
    (hn : (m.map Prod.fst).Nodup) : mapGet (mapDelete m k) k = none := by
  induction m with
  | nil => rfl
  | cons p rest ih =>
    obtain ⟨k', v'⟩ := p
    simp only [List.map_cons, List.nodup_cons] at hn
    by_cases h : k' = k
    · simp only [mapDelete, if_pos h]
      exact mapGet_eq_none_of_not_mem rest k (h ▸ hn.1)
    · simp only [mapDelete, if_neg h, mapGet, if_neg h]
      exact ih hn.2

theorem sublist_nodup_keys {m₁ m₂ : List (String × β)}
    (hs : List.Sublist m₁ m₂) (hn : (m₂.map Prod.fst).Nodup) :
    (m₁.map Prod.fst).Nodup :=
  (hs.map Prod.fst).nodup hn

end JsMap

/-! ## `BuiltinKeyDecryptor` cache (storage.ts:376-621) -/

/-- A cache entry `{ key, timestamp }` (storage.ts:378). -/
structure CacheEntry where
  key : List Nat
  timestamp : Nat
deriving DecidableEq

/-- `CACHE_DURATION = 5 * 60 * 1000` (storage.ts:380). -/
def CACHE_DURATION : Nat := 5 * 60 * 1000

/-- `MAX_CACHE_SIZE = 10` (storage.ts:381). -/
def MAX_CACHE_SIZE : Nat := 10

abbrev CacheMap := List (String × CacheEntry)

/-- `cleanExpiredCache` (storage.ts:610-621): delete every entry with
`now - timestamp > CACHE_DURATION`. -/
def cleanExpiredCache (now : Nat) (c : CacheMap) : CacheMap :=
  c.filter (fun p => !(now - p.2.timestamp > CACHE_DURATION))

/-- The eviction step of `cacheKey` (storage.ts:562-569): if the cache is at
capacity, read `cache.keys().next().value` — the first insertion-order key —
and delete it, but only if that key is truthy (`if (oldestKey)`), so an
empty-string key is never evicted. -/
def evictOldest (c : CacheMap) : CacheMap :=
  if c.length ≥ MAX_CACHE_SIZE then
    match c with
    | [] => c
    | (oldest, _) :: _ => if oldest = "" then c else mapDelete c oldest
  else c

/-- `cacheKey` (storage.ts:557-580): clean expired entries, evict the oldest
entry if at capacity, then `set` the new entry. -/
def cacheKey (now : Nat) (modelId : String) (key : List Nat) (c : CacheMap) :
    CacheMap :=
  mapSet (evictOldest (cleanExpiredCache now c)) modelId ⟨key, now⟩

/-- `getCachedKey` (storage.ts:585-605): look up by id; a present entry older
than `CACHE_DURATION` is deleted and reported as a miss; otherwise the stored
plaintext is returned. Returns the possibly-updated cache alongside. -/
def getCachedKey (now : Nat) (modelId : String) (c : CacheMap) :
    Option (List Nat) × CacheMap :=
  match mapGet c modelId with
  | none => (none, c)
  | some e =>
      if now - e.timestamp > CACHE_DURATION then (none, mapDelete c modelId)
      else (some e.key, c)

/-! ## `AntiDebug` (src/lib/security/antiDebug.ts)

The browser-dependent observations each heuristic makes (window geometry,
`performance.now` deltas, whether the four critical built-ins still print as
native code) are modelled as one environment record sampled at check time. -/

structure DebugEnv where
  outerHeight : Int
  innerHeight : Int
  outerWidth : Int
  innerWidth : Int
  /-- Elapsed ms for `console.log` in `checkConsole` (antiDebug.ts:105-112). -/
  consoleDelay : Nat
  /-- Elapsed ms around the `debugger` statement (antiDebug.ts:117-131). -/
  debuggerDelay : Nat
  /-- `crypto.subtle.encrypt` exists and prints as native code. -/
  encryptNative : Bool
  /-- `crypto.subtle.decrypt` exists and prints as native code. -/
  decryptNative : Bool
  /-- `atob` exists and prints as native code. -/
  atobNative : Bool
  /-- `btoa` exists and prints as native code. -/
  btoaNative : Bool
deriving DecidableEq

/-- The window-geometry half of `checkDevTools` (antiDebug.ts:89-91):
an outer-vs-inner delta above 160px in either dimension. -/
def viewportTrip (d : DebugEnv) : Bool :=
  decide (d.outerHeight - d.innerHeight > 160) ||
  decide (d.outerWidth - d.innerWidth > 160)

/-- `checkConsole` (antiDebug.ts:105-112): `console.log` took more than
100 ms. -/
def checkConsole (d : DebugEnv) : Bool :=
  decide (d.consoleDelay > 100)

/-- `checkDevTools` (antiDebug.ts:85-100): window-size delta **or** the
console-timing heuristic. -/
def checkDevTools (d : DebugEnv) : Bool :=
  viewportTrip d || checkConsole d

/-- `checkDebugger` (antiDebug.ts:117-131): the `debugger` statement stalled
for more than 100 ms. -/
def checkDebugger (d : DebugEnv) : Bool :=
  decide (d.debuggerDelay > 100)

/-- `checkCodeIntegrity` (antiDebug.ts:136-157): some critical built-in
(`crypto.subtle.encrypt`, `crypto.subtle.decrypt`, `atob`, `btoa`) is missing
or no longer prints as native code. -/
def checkCodeIntegrity (d : DebugEnv) : Bool :=
  !(d.encryptNative && d.decryptNative && d.atobNative && d.btoaNative)

/-- `AntiDebug.isSecureEnvironment` (antiDebug.ts:253-261):
`!checkDevTools && !checkDebugger && !checkCodeIntegrity`. -/
def adIsSecureEnvironment (d : DebugEnv) : Bool :=
  !checkDevTools d && !checkDebugger d && !checkCodeIntegrity d

/-- `AntiDebug`'s own mutable state: the `isActive` flag and the interval
handle (antiDebug.ts:8-9). -/
structure AntiDebugState where
  isActive : Bool
  checkInterval : Option Nat
deriving DecidableEq

/-- `AntiDebug.stop` (antiDebug.ts:33-41). -/
def adStop (st : AntiDebugState) : AntiDebugState :=
  if st.isActive then ⟨false, none⟩ else st

/-- The diagnostic record built by `triggerSecurityEvent`
(antiDebug.ts:229-248). -/
structure SecurityEvent where
  eventType : String
  reason : String
  timestamp : String
  userAgent : String
  url : String
deriving DecidableEq

/-! ## `BuiltinKeyDecryptor` (storage.ts:376-694) -/

/-- The decryptor's sensitive in-memory state: the plaintext cache, the
derived device key, and — owned by the `DeviceFingerprint` singleton but
wiped through `clearSensitiveData` — the fingerprint memo. -/
structure DecryptorState where
  cache : CacheMap
  deviceKey : Option DeviceKeyT
  fingerprintMemo : Option (List Nat)
deriving DecidableEq

/-- `clearSensitiveData` (storage.ts:626-641): clear the cache, null the
device key, clear the fingerprint memo. -/
def clearedState : DecryptorState :=
  ⟨[], none, none⟩

/-- `KeyFragments` (storage.ts:697-703): three base64 fragments with an
optional combine order (default `[1,2,3]`) and separator (default `"_"`,
code 95). -/
structure KeyFragments where
  f1 : List Nat
  f2 : List Nat
  f3 : List Nat
  combineOrder : Option (List Nat)
  separator : Option (List Nat)
deriving DecidableEq

/-- `EncryptedBuiltinModel` (storage.ts:705-715), restricted to the fields
the decryptor reads. -/
structure EncryptedBuiltinModel where
  id : String
  keyFragments : KeyFragments
deriving DecidableEq

/-- The JS string `"undefined"`, produced when `combineOrder` indexes outside
the fragment array (`fragmentsArray[index-1]` is `undefined` and `join`
stringifies it). -/
def undefinedStr : List Nat :=
  [117, 110, 100, 101, 102, 105, 110, 101, 100]

/-- Join a list of strings with a separator (`Array.prototype.join`). -/
def joinSep (sep : List Nat) : List (List Nat) → List Nat
  | [] => []
  | [x] => x
  | x :: y :: rest => x ++ sep ++ joinSep sep (y :: rest)

/-- `recombineKeyFragments` (storage.ts:511-528): order the three fragments
by the 1-based `combineOrder` and join them with the separator. -/
def recombineKeyFragments (fr : KeyFragments) : List Nat :=
  let order := fr.combineOrder.getD [1, 2, 3]
  let sep := fr.separator.getD [95]
  joinSep sep (order.map (fun i => [fr.f1, fr.f2, fr.f3].getD (i - 1) undefinedStr))

/-- The execution environment a `decryptKey` call observes: the
`isEnvironmentSecure` inputs (storage.ts:672-693), the anti-debug
observations, `Date.now()`, the collected device-fingerprint digest and the
CSPRNG stream. -/
structure DecEnv where
  cryptoAvailable : Bool
  httpsOk : Bool
  notInIframe : Bool
  debug : DebugEnv
  now : Nat
  fingerprint : List Nat
  entropy : Nat → Nat

/-- `BuiltinKeyDecryptor.isEnvironmentSecure` (storage.ts:672-693):
WebCrypto present, HTTPS (or localhost), not framed. -/
def isEnvironmentSecure (e : DecEnv) : Bool :=
  e.cryptoAvailable && e.httpsOk && e.notInIframe

/-- The combined gate evaluated by `performSecurityCheck`
(storage.ts:533-552): `isEnvironmentSecure` and then
`AntiDebug.isSecureEnvironment`; on failure the catch block wipes the
sensitive state and rethrows. -/
def secureGate (e : DecEnv) : Bool :=
  isEnvironmentSecure e && adIsSecureEnvironment e.debug

/-- `DeviceFingerprint.generateFingerprint` (deviceFingerprint.ts:325-340):
return the memoised digest if present, otherwise collect-and-hash (the
environment's digest) and memoise it. -/
def generateFingerprint (e : DecEnv) (memo : Option (List Nat)) :
    List Nat × Option (List Nat) :=
  match memo with
  | some f => (f, some f)
  | none => (e.fingerprint, some e.fingerprint)

/-- `getDeviceKey` (storage.ts:452-479): reuse the memoised device key, else
derive one from the fingerprint and a **freshly generated** salt
(`generateSalt()`, 32 CSPRNG bytes) with the configured iteration count; the
record is not consulted and the salt is not stored anywhere. -/
def getDeviceKey (e : DecEnv) (st : DecryptorState) : DeviceKeyT × DecryptorState :=
  match st.deviceKey with
  | some dk => (dk, st)
  | none =>
      let fp := (generateFingerprint e st.fingerprintMemo).1
      let memo := (generateFingerprint e st.fingerprintMemo).2
      let dk := deriveKey fp (generateSalt e.entropy 32) KEY_DERIVATION_ITERATIONS
      (dk, { st with deviceKey := some dk, fingerprintMemo := memo })

/-- An abstract AES-GCM decryption primitive (`crypto.subtle.decrypt` behind
`CryptoUtils.decrypt`), taking key, IV and ciphertext. Theorems quantify over
it, acting as the call-count spy of spec §8. -/
def AesOracle : Type :=
  DeviceKeyT → List Nat → List Nat → Option (List Nat)

/-- Observable steps of one `decryptKey` call. -/
inductive DecEvent where
  | securityCheck
  | aesDecrypt
deriving DecidableEq

/-- `performDecryption` (storage.ts:484-506) composed with
`CryptoUtils.decryptFromBase64` (cryptoUtils.ts:135-148): recombine the
fragments, `atob` the result, then `decryptFromBase64` applies `atob` a
second time, splits off a 12-byte IV and calls the AES-GCM primitive. The
Bool reports whether the primitive was invoked. -/
def performDecryption (aes : AesOracle) (fr : KeyFragments) (dk : DeviceKeyT) :
    Option (List Nat) × Bool :=
  match atobJS (recombineKeyFragments fr) with
  | none => (none, false)
  | some encryptedData =>
      match atobJS encryptedData with
      | none => (none, false)
      | some combined =>
          (aes dk (combined.take 12) (combined.drop 12), true)

/-- The error message `decryptKey` throws (storage.ts:445): every underlying
failure is re-surfaced as this one opaque condition. -/
def decryptFailedMsg : String := "内置密钥解密失败"

/-- The cache-miss path of `decryptKey` (storage.ts:426-441): security gate
(wiping sensitive state and rejecting on failure), device key, decryption,
cache insert. The random anti-timing delay (storage.ts:439) only suspends and
is not observable in this state model. -/
def decryptFresh (e : DecEnv) (aes : AesOracle) (st : DecryptorState)
    (m : EncryptedBuiltinModel) :
    Except String (List Nat) × DecryptorState × List DecEvent :=
  if secureGate e then
    let dk := (getDeviceKey e st).1
    let st1 := (getDeviceKey e st).2
    match performDecryption aes m.keyFragments dk with
    | (some p, _) =>
        (Except.ok p, { st1 with cache := cacheKey e.now m.id p st1.cache },
          [DecEvent.securityCheck, DecEvent.aesDecrypt])
    | (none, invoked) =>
        (Except.error decryptFailedMsg, st1,
          DecEvent.securityCheck :: if invoked then [DecEvent.aesDecrypt] else [])
  else
    (Except.error decryptFailedMsg, clearedState, [DecEvent.securityCheck])

/-- `decryptKey` (storage.ts:418-447): a truthy cached plaintext is returned
immediately — before any security check; `null` (or the falsy empty string)
falls through to the fresh-decryption path. -/
def decryptKey (e : DecEnv) (aes : AesOracle) (st : DecryptorState)
    (m : EncryptedBuiltinModel) :
    Except String (List Nat) × DecryptorState × List DecEvent :=
  match getCachedKey e.now m.id st.cache with
  | (some k, c') =>
      if k = [] then decryptFresh e aes { st with cache := c' } m
      else (Except.ok k, { st with cache := c' }, [])
  | (none, c') => decryptFresh e aes { st with cache := c' } m

/-! ## The `AntiDebug` monitoring loop and its violation handling -/

/-- Browser storage reachable from `AntiDebug.clearSensitiveData`
(antiDebug.ts:207-224): `localStorage`, `sessionStorage` and the
`window.__sensitive_data` global. -/
structure BrowserStorage where
  localStorage : String → Option String
  sessionStorage : String → Option String
  sensitiveGlobal : Option String

/-- `Storage.removeItem`. -/
def removeItem (s : String → Option String) (k : String) : String → Option String :=
  fun k' => if k' = k then none else s k'

/-- `AntiDebug.clearSensitiveData` (antiDebug.ts:207-224): remove the keys
`api-key`, `token`, `secret` from both web storages and delete the
`__sensitive_data` global. It does **not** reach the decryptor's in-memory
state. -/
def adClearSensitiveData (s : BrowserStorage) : BrowserStorage :=
  { localStorage := removeItem (removeItem (removeItem s.localStorage "api-key") "token") "secret"
    sessionStorage := removeItem (removeItem (removeItem s.sessionStorage "api-key") "token") "secret"
    sensitiveGlobal := none }

/-- Everything a periodic anti-debug check can touch, plus — for stating what
it does **not** touch — the decryptor's sensitive state, the local event log,
and the list of events transmitted off-device. -/
structure AntiDebugWorld where
  ad : AntiDebugState
  storage : BrowserStorage
  decryptor : DecryptorState
  log : List SecurityEvent
  sent : List SecurityEvent

/-- `handleSuspiciousActivity` (antiDebug.ts:190-202): clear the (browser
storage) sensitive data, stop the interval, and record a security event —
`triggerSecurityEvent` (antiDebug.ts:229-248) only logs it locally; the
server-report call is commented out. -/
def handleSuspiciousActivity (reason userAgent url isoTime : String)
    (w : AntiDebugWorld) : AntiDebugWorld :=
  { w with
    storage := adClearSensitiveData w.storage
    ad := adStop w.ad
    log := w.log ++ [⟨"SUSPICIOUS_ACTIVITY", reason, isoTime, userAgent, url⟩] }

/-- `performSecurityChecks` (antiDebug.ts:46-69): run `checkDevTools`,
`checkCodeIntegrity`, `checkDebugger` in that order and handle the first
that trips. -/
def performSecurityChecks (d : DebugEnv) (userAgent url isoTime : String)
    (w : AntiDebugWorld) : AntiDebugWorld :=
  if checkDevTools d then
    handleSuspiciousActivity "开发者工具检测" userAgent url isoTime w
  else if checkCodeIntegrity d then
    handleSuspiciousActivity "代码完整性检查失败" userAgent url isoTime w
  else if checkDebugger d then
    handleSuspiciousActivity "调试器检测" userAgent url isoTime w
  else w

/-- One tick of the 1000 ms monitoring interval (antiDebug.ts:74-80): the
checks run only while `isActive`. -/
def monitorTick (d : DebugEnv) (userAgent url isoTime : String)
    (w : AntiDebugWorld) : AntiDebugWorld :=
  if w.ad.isActive then performSecurityChecks d userAgent url isoTime w else w

/-! ## Cache lemmas -/

theorem cleanExpiredCache_sublist (now : Nat) (c : CacheMap) :
    List.Sublist (cleanExpiredCache now c) c :=
  List.filter_sublist c

theorem mapGet_cacheKey_self (now : Nat) (id : String) (key : List Nat) (c : CacheMap) :
    mapGet (cacheKey now id key c) id = some ⟨key, now⟩ := by
  unfold cacheKey
  exact mapGet_mapSet_self (evictOldest (cleanExpiredCache now c)) id
    (⟨key, now⟩ : CacheEntry)

theorem evictOldest_sublist (c : CacheMap) : List.Sublist (evictOldest c) c := by
  unfold evictOldest
  split
  · match c with
    | [] => simp
    | (oldest, v) :: t =>
      show List.Sublist
        (if oldest = "" then (oldest, v) :: t else mapDelete ((oldest, v) :: t) oldest) _
      by_cases h : oldest = ""
      · rw [if_pos h]
      · rw [if_neg h]
        exact mapDelete_sublist _ _
  · exact List.Sublist.refl c

theorem evictOldest_length_le (c : CacheMap)
    (hne : ∀ k ∈ c.map Prod.fst, k ≠ "") (hlen : c.length ≤ MAX_CACHE_SIZE) :
    (evictOldest c).length ≤ MAX_CACHE_SIZE - 1 := by
  unfold evictOldest
  split
  · rename_i hge
    match c, hge, hne, hlen with
    | [], hge, hne, hlen => simp [MAX_CACHE_SIZE] at hge
    | (oldest, v) :: t, hge, hne, hlen =>
      have holdne : oldest ≠ "" := hne oldest (by simp)
      show List.length
        (if oldest = "" then (oldest, v) :: t else mapDelete ((oldest, v) :: t) oldest) ≤
          MAX_CACHE_SIZE - 1
      rw [if_neg holdne]
      have hdel : mapDelete ((oldest, v) :: t) oldest = t := by
        simp [mapDelete]
      rw [hdel]
      simp only [List.length_cons] at hlen
      simp only [MAX_CACHE_SIZE] at hlen ⊢
      omega
  · rename_i hlt
    simp only [MAX_CACHE_SIZE] at hlt ⊢
    omega

theorem cacheKey_nodup (now : Nat) (id : String) (key : List Nat) (c : CacheMap)
    (hn : (c.map Prod.fst).Nodup) :
    ((cacheKey now id key c).map Prod.fst).Nodup := by
  unfold cacheKey
  exact mapSet_nodup_keys _ _ _
    (sublist_nodup_keys (evictOldest_sublist _)
      (sublist_nodup_keys (cleanExpiredCache_sublist now c) hn))

theorem cacheKey_length_le (now : Nat) (id : String) (key : List Nat) (c : CacheMap)
    (hne : ∀ k ∈ c.map Prod.fst, k ≠ "") (hlen : c.length ≤ MAX_CACHE_SIZE) :
    (cacheKey now id key c).length ≤ MAX_CACHE_SIZE := by
  have hsub := cleanExpiredCache_sublist now c
  have hc1len : (cleanExpiredCache now c).length ≤ MAX_CACHE_SIZE :=
    le_trans hsub.length_le hlen
  have hc1ne : ∀ k ∈ (cleanExpiredCache now c).map Prod.fst, k ≠ "" :=
    fun k hk => hne k ((hsub.map Prod.fst).mem hk)
  have hev := evictOldest_length_le _ hc1ne hc1len
  unfold cacheKey
  refine le_trans (mapSet_length_le _ _ _) ?_
  simp only [MAX_CACHE_SIZE] at hev ⊢
  omega

/-- Record ids used for the eleven-distinct-insert scenario. -/
def elevenIds : List String :=
  ["k01", "k02", "k03", "k04", "k05", "k06", "k07", "k08", "k09", "k10", "k11"]

/-- Inserting plaintexts for the eleven ids in sequence at one instant. -/
def insertEleven : CacheMap :=
  elevenIds.foldl (fun c i => cacheKey 0 i [] c) []

/-- The same eleven inserts, but with the empty string as the first id. -/
def insertElevenEmptyFirst : CacheMap :=
  (["", "k02", "k03", "k04", "k05", "k06", "k07", "k08", "k09", "k10", "k11"]).foldl
    (fun c i => cacheKey 0 i [] c) []


/-! ## Claim C8 — fragment recombination -/

/-- The spec's fragment triple `f1="QQ=="`, `f2="Qg=="`, `f3="Qw=="` with the
given combine order and empty separator. -/
def fragsABC (order : List Nat) : KeyFragments :=
  ⟨[81, 81, 61, 61], [81, 103, 61, 61], [81, 119, 61, 61], some order, some []⟩

/-- C8 counterexample: the recombined strings `"QQ==Qg==Qw=="` and
`"Qw==QQ==Qg=="` do **not** base64-decode to `"ABC"` and `"CAB"`; forgiving
base64 rejects them outright because `=` occurs away from the end, so `atob`
throws. -/
theorem c8_concat_rejected :
    atobJS (recombineKeyFragments (fragsABC [1, 2, 3])) = none ∧
    atobJS (recombineKeyFragments (fragsABC [3, 1, 2])) = none := by decide

/-- C8 (amended): with order `[1,2,3]` and separator `""` the fragments
recombine — via the 1-based indexing — to `"QQ==Qg==Qw=="`, and with
`[3,1,2]` to `"Qw==QQ==Qg=="`; each fragment individually decodes to `"A"`,
`"B"`, `"C"` respectively, but both concatenations fail base64 decoding
because of their interior padding characters. -/
theorem c8_recombine_order :
    recombineKeyFragments (fragsABC [1, 2, 3]) =
      [81, 81, 61, 61, 81, 103, 61, 61, 81, 119, 61, 61] ∧
    recombineKeyFragments (fragsABC [3, 1, 2]) =
      [81, 119, 61, 61, 81, 81, 61, 61, 81, 103, 61, 61] ∧
    atobJS [81, 81, 61, 61] = some [65] ∧
    atobJS [81, 103, 61, 61] = some [66] ∧
    atobJS [81, 119, 61, 61] = some [67] ∧
    atobJS (recombineKeyFragments (fragsABC [1, 2, 3])) = none ∧
    atobJS (recombineKeyFragments (fragsABC [3, 1, 2])) = none := by decide

/-! ## Claim C9 — obfuscate / deobfuscate -/

/-- C9 counterexample: for the string `">>>"` (code units `[62,62,62]`),
whose reversed base64 encoding `"Pj4+"` contains `+`, the round-trip loses a
character: `deobfuscate(obfuscate(">>>"))` is `">>"`, not `">>>"`. -/
theorem c9_roundtrip_fails :
    (obfuscate [62, 62, 62]).bind deobfuscate = some [62, 62] ∧
    (obfuscate [62, 62, 62]).bind deobfuscate ≠ some [62, 62, 62] := by decide

/-- C9 (amended): `deobfuscate` inverts `obfuscate` exactly on those latin1
strings whose reversed base64 encoding contains no `+` (43) and no `/` (47) —
the `replace(/[+\/=]/g,'')` step only discards recoverable `=` padding in that
case, while discarded `+` or `/` characters are lost for good. -/
theorem c9_roundtrip_no_plus_slash (s : List Nat) (hlt : ∀ b ∈ s, b < 256)
    (hp : ∀ c ∈ encodeChunks s.reverse, c ≠ 43 ∧ c ≠ 47) :
    (obfuscate s).bind deobfuscate = some s := by
  have hlt' : ∀ b ∈ s.reverse, b < 256 := fun b hb => hlt b (List.mem_reverse.mp hb)
  rw [obfuscate_eq s hlt]
  rw [Option.some_bind]
  rw [filter_strip_encodeChunks s.reverse hp]
  rw [deobfuscate_encBody s.reverse hlt']
  rw [List.reverse_reverse]

/-- C9 witness: the round-trip is the identity on `"ABC"`. -/
theorem c9_roundtrip_witness :
    (obfuscate [65, 66, 67]).bind deobfuscate = some [65, 66, 67] :=
  c9_roundtrip_no_plus_slash [65, 66, 67] (by decide) (by decide)

/-! ## Claim C2 — the decode stage of `performDecryption` -/

/-- Decode stage of the implemented pipeline (storage.ts:492-498 followed by
cryptoUtils.ts:139-141): `atob` applied to the recombined string by
`performDecryption`, then `atob` applied again by `decryptFromBase64`. -/
def implementedDecodeStage (fr : KeyFragments) : Option (List Nat) :=
  (atobJS (recombineKeyFragments fr)).bind atobJS

/-- Decode stage as the spec words it (spec §4.4 step 4): recombine into
\"the base64 ciphertext container; decode\" — a **single** base64 decode of
the recombined string. Refinement-comparison definition, written from the
spec's words, to be compared with `implementedDecodeStage`. -/
def specSingleDecodeStage (fr : KeyFragments) : Option (List Nat) :=
  atobJS (recombineKeyFragments fr)

/-- Fragments recombining (order `[1,2,3]`, empty separator) to `"VVE9PQ=="`,
the base64 encoding of `"UQ=="`, itself the base64 encoding of `"Q"`. -/
def fragsC2 : KeyFragments :=
  ⟨[86, 86, 69, 57], [80, 81, 61, 61], [], some [1, 2, 3], some []⟩

/-- C2 counterexample: the implemented double-decode pipeline and the spec's
single-decode pipeline disagree: on `fragsC2` the implementation feeds the
container `"Q"` (`[81]`) to AES-GCM, the specified single decode yields
`"UQ=="` (`[85,81,61,61]`). -/
theorem c2_pipelines_differ :
    implementedDecodeStage fragsC2 = some [81] ∧
    specSingleDecodeStage fragsC2 = some [85, 81, 61, 61] ∧
    implementedDecodeStage fragsC2 ≠ specSingleDecodeStage fragsC2 := by decide

/-- C2 (amended): `performDecryption` base64-decodes the recombined string
**twice**; for every record whose recombined fragments are the double base64
encoding of an IV‖ciphertext container, it passes exactly the first 12 bytes
of that container as IV and the remainder as ciphertext to the AES-GCM
primitive under the device key. -/
theorem c2_double_decode (aes : AesOracle) (dk : DeviceKeyT) (container : List Nat)
    (h : ∀ b ∈ container, b < 256) (fr : KeyFragments)
    (hf : recombineKeyFragments fr = encodeChunks (encodeChunks container)) :
    performDecryption aes fr dk =
      (aes dk (container.take 12) (container.drop 12), true) ∧
    implementedDecodeStage fr = some container := by
  have h2 : ∀ b ∈ encodeChunks container, b < 256 :=
    fun b hb => encodeChunks_lt_256 container b hb
  unfold performDecryption implementedDecodeStage
  rw [hf, atobJS_encodeChunks _ h2]
  show (match atobJS (encodeChunks container) with
      | none => (none, false)
      | some combined => (aes dk (List.take 12 combined) (List.drop 12 combined), true)) =
        (aes dk (List.take 12 container) (List.drop 12 container), true) ∧
      atobJS (encodeChunks container) = some container
  rw [atobJS_encodeChunks _ h]
  exact ⟨rfl, rfl⟩

/-- A concrete AES oracle for witnesses. -/
def aesW : AesOracle := fun _ _ _ => some [7]

/-- A concrete device key for witnesses. -/
def dkW : DeviceKeyT := ⟨[], [], 0⟩

/-- Fragments holding the double base64 encoding of the 13-byte container
`[0,…,12]` in `f1`, with empty separator. -/
def fragsC2W : KeyFragments :=
  ⟨encodeChunks (encodeChunks (List.range 13)), [], [], some [1, 2, 3], some []⟩

/-- C2 witness: on the doubly-encoded 13-byte container the implemented
pipeline splits IV `[0,…,11]` from ciphertext `[12]` and invokes the AES
primitive. -/
theorem c2_double_decode_witness :
    performDecryption aesW fragsC2W dkW =
      (aesW dkW ((List.range 13).take 12) ((List.range 13).drop 12), true) ∧
    implementedDecodeStage fragsC2W = some (List.range 13) :=
  c2_double_decode aesW dkW (List.range 13) (by decide) fragsC2W (by decide)

/-! ## Claim C10 — `AntiDebug.isSecureEnvironment` -/

/-- An environment in which the viewport, debugger-timing and tamper checks
all pass but the console-timing heuristic trips (200 ms log latency). -/
def dConsoleSlow : DebugEnv :=
  ⟨800, 800, 600, 600, 200, 0, true, true, true, true⟩

/-- C10 counterexample: checks 1, 3 and 4 all pass on `dConsoleSlow`, yet
`isSecureEnvironment` returns `false` — because `checkDevTools` also runs the
console-timing heuristic (check 2), contrary to the claim. -/
theorem c10_console_included :
    viewportTrip dConsoleSlow = false ∧
    checkDebugger dConsoleSlow = false ∧
    checkCodeIntegrity dConsoleSlow = false ∧
    adIsSecureEnvironment dConsoleSlow = false := by decide

/-- C10 (amended): `isSecureEnvironment` synchronously evaluates the viewport
heuristic, the console-timing heuristic (inside `checkDevTools`), the
debugger-timing heuristic and the native-function tamper check, and returns
`true` iff none of the **four** trips. -/
theorem c10_secure_iff (d : DebugEnv) :
    adIsSecureEnvironment d = true ↔
      (viewportTrip d = false ∧ checkConsole d = false ∧
        checkDebugger d = false ∧ checkCodeIntegrity d = false) := by
  unfold adIsSecureEnvironment checkDevTools
  cases hv : viewportTrip d <;> cases hc : checkConsole d <;>
    cases hd : checkDebugger d <;> cases hi : checkCodeIntegrity d <;> simp

/-- C10 witness: the four-check characterisation evaluated on a concrete
all-quiet environment. -/
theorem c10_secure_iff_witness :
    adIsSecureEnvironment ⟨800, 800, 600, 600, 0, 0, true, true, true, true⟩ = true ↔
      (viewportTrip ⟨800, 800, 600, 600, 0, 0, true, true, true, true⟩ = false ∧
        checkConsole ⟨800, 800, 600, 600, 0, 0, true, true, true, true⟩ = false ∧
        checkDebugger ⟨800, 800, 600, 600, 0, 0, true, true, true, true⟩ = false ∧
        checkCodeIntegrity ⟨800, 800, 600, 600, 0, 0, true, true, true, true⟩ = false) :=
  c10_secure_iff ⟨800, 800, 600, 600, 0, 0, true, true, true, true⟩

/-! ## Claims C6 and C7 — cache bound, eviction order and TTL -/

theorem getCachedKey_snd_sublist (now : Nat) (id : String) (c : CacheMap) :
    List.Sublist (getCachedKey now id c).2 c := by
  unfold getCachedKey
  cases h : mapGet c id with
  | none => exact List.Sublist.refl c
  | some e =>
    show List.Sublist
      (if now - e.timestamp > CACHE_DURATION then (none, mapDelete c id)
        else (some e.key, c)).2 c
    by_cases ht : now - e.timestamp > CACHE_DURATION
    · rw [if_pos ht]
      exact mapDelete_sublist c id
    · rw [if_neg ht]

/-- C6 counterexample: the cache **can** exceed `MAX_CACHE_SIZE`. When the
oldest entry's key is the empty string, the truthiness guard
`if (oldestKey)` (storage.ts:566) skips the eviction, so inserting eleven
distinct ids whose first is `""` leaves all eleven entries. -/
theorem c6_empty_id_overflow :
    insertElevenEmptyFirst.length = 11 ∧ MAX_CACHE_SIZE < insertElevenEmptyFirst.length := by
  decide

/-- C6 (amended): provided no cached record id is the empty string, `cacheKey`
keeps the cache at or below `MAX_CACHE_SIZE = 10`; inserting plaintexts for the
eleven distinct nonempty ids in sequence leaves exactly ids 2–11 in insertion
order (id 1 evicted); and a lookup never reorders the cache — it returns a
sublist (the cache itself, or the cache minus an expired entry). -/
theorem c6_cache_bound :
    (∀ (now : Nat) (id : String) (key : List Nat) (c : CacheMap),
        (∀ k ∈ c.map Prod.fst, k ≠ "") → c.length ≤ MAX_CACHE_SIZE →
        (cacheKey now id key c).length ≤ MAX_CACHE_SIZE) ∧
    insertEleven = (elevenIds.drop 1).map (fun i => (i, ⟨[], 0⟩)) ∧
    (∀ (now : Nat) (id : String) (c : CacheMap),
        List.Sublist (getCachedKey now id c).2 c) :=
  ⟨cacheKey_length_le, by decide, getCachedKey_snd_sublist⟩

/-- C6 witness: the bound applied to one concrete insertion. -/
theorem c6_cache_bound_witness :
    (cacheKey 0 "k01" [] []).length ≤ MAX_CACHE_SIZE :=
  c6_cache_bound.1 0 "k01" [] [] (by decide) (by decide)

/-- C7: an entry cached at `t0` is a hit at `t0+299999` (returning the stored
plaintext, cache untouched) and a miss at `t0+300001` with
`CACHE_DURATION = 300000`; the expiring lookup also deletes the entry. -/
theorem c7_cache_ttl (c : CacheMap) (id : String) (key : List Nat) (t0 : Nat)
    (hn : (c.map Prod.fst).Nodup) :
    getCachedKey (t0 + 299999) id (cacheKey t0 id key c) =
      (some key, cacheKey t0 id key c) ∧
    (getCachedKey (t0 + 300001) id (cacheKey t0 id key c)).1 = none ∧
    mapGet (getCachedKey (t0 + 300001) id (cacheKey t0 id key c)).2 id = none := by
  have hget := mapGet_cacheKey_self t0 id key c
  have hnd := cacheKey_nodup t0 id key c hn
  have h1 : t0 + 299999 - t0 = 299999 := by omega
  have h2 : t0 + 300001 - t0 = 300001 := by omega
  refine ⟨?_, ?_, ?_⟩
  · unfold getCachedKey
    rw [hget]
    show (if t0 + 299999 - t0 > CACHE_DURATION then _ else _) = _
    rw [if_neg (by simp only [h1, CACHE_DURATION]; omega)]
  · unfold getCachedKey
    rw [hget]
    show (if t0 + 300001 - t0 > CACHE_DURATION then
        ((none, mapDelete (cacheKey t0 id key c) id) :
          Option (List Nat) × CacheMap)
      else (some key, cacheKey t0 id key c)).1 = none
    rw [if_pos (by simp only [h2, CACHE_DURATION]; omega)]
  · unfold getCachedKey
    rw [hget]
    show mapGet (if t0 + 300001 - t0 > CACHE_DURATION then
        ((none, mapDelete (cacheKey t0 id key c) id) :
          Option (List Nat) × CacheMap)
      else (some key, cacheKey t0 id key c)).2 id = none
    rw [if_pos (by simp only [h2, CACHE_DURATION]; omega)]
    exact mapGet_mapDelete_self _ id hnd

/-- C7 witness: the TTL boundary behaviour on a concrete singleton cache. -/
theorem c7_cache_ttl_witness :
    getCachedKey 299999 "k01" (cacheKey 0 "k01" [9] []) =
      (some [9], cacheKey 0 "k01" [9] []) ∧
    (getCachedKey 300001 "k01" (cacheKey 0 "k01" [9] [])).1 = none ∧
    mapGet (getCachedKey 300001 "k01" (cacheKey 0 "k01" [9] [])).2 "k01" = none :=
  c7_cache_ttl [] "k01" [9] 0 (by decide)

/-! ## Claims C1 and C4 — the security gate in `decryptKey` -/

theorem decryptFresh_insecure (e : DecEnv) (aes : AesOracle) (st : DecryptorState)
    (m : EncryptedBuiltinModel) (hgate : secureGate e = false) :
    decryptFresh e aes st m =
      (Except.error decryptFailedMsg, clearedState, [DecEvent.securityCheck]) := by
  unfold decryptFresh
  rw [hgate]
  rfl

theorem decryptFresh_ok_gate (e : DecEnv) (aes : AesOracle) (st : DecryptorState)
    (m : EncryptedBuiltinModel) (k : List Nat)
    (hok : (decryptFresh e aes st m).1 = Except.ok k) :
    secureGate e = true ∧ DecEvent.securityCheck ∈ (decryptFresh e aes st m).2.2 := by
  by_cases hg : secureGate e
  · refine ⟨hg, ?_⟩
    unfold decryptFresh
    rw [if_pos hg]
    rcases hpd : performDecryption aes m.keyFragments (getDeviceKey e st).1 with ⟨op, inv⟩
    cases op with
    | some p => simp [hpd]
    | none => simp [hpd]
  · rw [decryptFresh_insecure e aes st m (by simpa using hg)] at hok
    exact absurd hok (by simp)

/-- C1: on a record id with no fresh cache entry, if the security gate of
`performSecurityCheck` reports insecure, `decryptKey` rejects with the opaque
failure, the AES-GCM decrypt primitive is never invoked, the sensitive-state
wipe (`clearSensitiveData`: cache cleared, device key nulled, fingerprint memo
cleared) has been performed by the time the rejection surfaces, and no cache
entry exists for that id afterwards. -/
theorem c1_insecure_rejects (e : DecEnv) (aes : AesOracle) (st : DecryptorState)
    (m : EncryptedBuiltinModel)
    (hmiss : (getCachedKey e.now m.id st.cache).1 = none)
    (hgate : secureGate e = false) :
    (decryptKey e aes st m).1 = Except.error decryptFailedMsg ∧
    DecEvent.aesDecrypt ∉ (decryptKey e aes st m).2.2 ∧
    (decryptKey e aes st m).2.1 = clearedState ∧
    mapGet (decryptKey e aes st m).2.1.cache m.id = none := by
  have hkey : decryptKey e aes st m =
      (Except.error decryptFailedMsg, clearedState, [DecEvent.securityCheck]) := by
    unfold decryptKey
    rcases hres : getCachedKey e.now m.id st.cache with ⟨r, c'⟩
    rw [hres] at hmiss
    simp only at hmiss
    subst hmiss
    exact decryptFresh_insecure e aes _ m hgate
  rw [hkey]
  refine ⟨rfl, ?_, rfl, rfl⟩
  decide

/-- C1 witness: a concrete insecure environment (WebCrypto absent). -/
def envInsecure : DecEnv :=
  ⟨false, true, true, ⟨800, 800, 600, 600, 0, 0, true, true, true, true⟩, 0, [5],
    fun _ => 0⟩

/-- A concrete encrypted-model record. -/
def mRec : EncryptedBuiltinModel := ⟨"m1", fragsC2⟩

theorem c1_insecure_rejects_witness :
    (decryptKey envInsecure aesW clearedState mRec).1 = Except.error decryptFailedMsg ∧
    DecEvent.aesDecrypt ∉ (decryptKey envInsecure aesW clearedState mRec).2.2 ∧
    (decryptKey envInsecure aesW clearedState mRec).2.1 = clearedState ∧
    mapGet (decryptKey envInsecure aesW clearedState mRec).2.1.cache mRec.id = none :=
  c1_insecure_rejects envInsecure aesW clearedState mRec (by decide) (by decide)

/-- A decryptor state holding a fresh cached plaintext for `"m1"`. -/
def stCached : DecryptorState := ⟨[("m1", ⟨[107], 0⟩)], none, none⟩

/-- C4 counterexample: with the environment insecure but a fresh cache entry
present, `decryptKey` returns the cached plaintext without evaluating the
security gate at all — the event trace is empty — so a decrypt call **can**
return a plaintext in an insecure environment. -/
theorem c4_cached_bypasses_gate :
    secureGate envInsecure = false ∧
    decryptKey envInsecure aesW stCached mRec = (Except.ok [107], stCached, []) :=
  ⟨by decide, by rfl⟩

/-- C4 (amended): the gate is evaluated only on the fresh-decryption path: a
call that returns a plaintext either served it from the cache (no security
check, no cryptography), or evaluated the environment-security gate during
the call and found it passing. -/
theorem c4_ok_gate_or_cache (e : DecEnv) (aes : AesOracle) (st : DecryptorState)
    (m : EncryptedBuiltinModel) (k : List Nat)
    (hok : (decryptKey e aes st m).1 = Except.ok k) :
    (getCachedKey e.now m.id st.cache).1 = some k ∨
    (secureGate e = true ∧ DecEvent.securityCheck ∈ (decryptKey e aes st m).2.2) := by
  unfold decryptKey at hok ⊢
  rcases hres : getCachedKey e.now m.id st.cache with ⟨r, c'⟩
  rw [hres] at hok
  cases r with
  | some kk =>
    by_cases hk : kk = []
    · subst hk
      replace hok : (decryptFresh e aes { st with cache := c' } m).1 = Except.ok k := hok
      have h := decryptFresh_ok_gate e aes { st with cache := c' } m k hok
      exact Or.inr ⟨h.1, h.2⟩
    · replace hok : (if kk = [] then decryptFresh e aes { st with cache := c' } m
          else (Except.ok kk, { st with cache := c' }, [])).1 = Except.ok k := hok
      rw [if_neg hk] at hok
      replace hok : Except.ok kk = Except.ok k := hok
      cases hok
      exact Or.inl rfl
  | none =>
    replace hok : (decryptFresh e aes { st with cache := c' } m).1 = Except.ok k := hok
    have h := decryptFresh_ok_gate e aes { st with cache := c' } m k hok
    exact Or.inr ⟨h.1, h.2⟩

/-- C4 witness: the amended statement instantiated at the cache-hit call. -/
theorem c4_ok_gate_or_cache_witness :
    (getCachedKey envInsecure.now mRec.id stCached.cache).1 = some [107] ∨
    (secureGate envInsecure = true ∧
      DecEvent.securityCheck ∈ (decryptKey envInsecure aesW stCached mRec).2.2) :=
  c4_ok_gate_or_cache envInsecure aesW stCached mRec [107] (by rfl)

/-! ## Claim C3 — fresh salt, derivation-unique keys -/

/-- C3: a device-key derivation on a fresh state (no memoised key — a new
instance, a new process, or after `clearSensitiveData`) draws a fresh 32-byte
CSPRNG salt via `generateSalt` — the record plays no part and the salt is not
persisted, only the derived key handle is kept — so two derivations over the
same fingerprint whose salt draws differ yield different AES keys, and a
ciphertext produced under the key of one derivation fails to decrypt
(authentication failure) under the key of the other. -/
theorem c3_fresh_salt_distinct_keys (e1 e2 : DecEnv) (st : DecryptorState)
    (hfresh : st.deviceKey = none)
    (hfp : e1.fingerprint = e2.fingerprint)
    (hmemo : st.fingerprintMemo = none)
    (hsalt : generateSalt e1.entropy 32 ≠ generateSalt e2.entropy 32) :
    (generateSalt e1.entropy 32).length = 32 ∧
    ((getDeviceKey e1 st).1).salt = generateSalt e1.entropy 32 ∧
    ((getDeviceKey e1 st).1).fingerprint = ((getDeviceKey e2 st).1).fingerprint ∧
    (getDeviceKey e1 st).1 ≠ (getDeviceKey e2 st).1 ∧
    (∀ p iv, aesGcmDecrypt (aesGcmEncrypt p (getDeviceKey e1 st).1 iv)
        ((getDeviceKey e2 st).1) iv = none) := by
  have hk1 : (getDeviceKey e1 st).1 =
      deriveKey e1.fingerprint (generateSalt e1.entropy 32) KEY_DERIVATION_ITERATIONS := by
    unfold getDeviceKey
    rw [hfresh, hmemo]
    rfl
  have hk2 : (getDeviceKey e2 st).1 =
      deriveKey e2.fingerprint (generateSalt e2.entropy 32) KEY_DERIVATION_ITERATIONS := by
    unfold getDeviceKey
    rw [hfresh, hmemo]
    rfl
  have hne : (getDeviceKey e1 st).1 ≠ (getDeviceKey e2 st).1 := by
    rw [hk1, hk2]
    intro heq
    exact hsalt (congrArg DeviceKeyT.salt heq)
  refine ⟨generateSalt_length e1.entropy 32, by rw [hk1]; rfl, ?_, hne, ?_⟩
  · rw [hk1, hk2, hfp]
    rfl
  · intro p iv
    unfold aesGcmDecrypt aesGcmEncrypt
    rw [if_neg]
    intro hand
    exact hne hand.1

/-- Two environments identical except for their CSPRNG streams. -/
def envRunA : DecEnv :=
  ⟨true, true, true, ⟨800, 800, 600, 600, 0, 0, true, true, true, true⟩, 0, [5],
    fun _ => 0⟩

def envRunB : DecEnv :=
  ⟨true, true, true, ⟨800, 800, 600, 600, 0, 0, true, true, true, true⟩, 0, [5],
    fun _ => 1⟩

/-- C3 witness: two concrete derivations over the same fingerprint with
different salt draws. -/
theorem c3_fresh_salt_witness :
    (generateSalt envRunA.entropy 32).length = 32 ∧
    ((getDeviceKey envRunA clearedState).1).salt = generateSalt envRunA.entropy 32 ∧
    (getDeviceKey envRunA clearedState).1 ≠ (getDeviceKey envRunB clearedState).1 ∧
    aesGcmDecrypt (aesGcmEncrypt [9] (getDeviceKey envRunA clearedState).1 [3])
      ((getDeviceKey envRunB clearedState).1) [3] = none := by
  have h := c3_fresh_salt_distinct_keys envRunA envRunB clearedState rfl rfl rfl (by decide)
  exact ⟨h.1, h.2.1, h.2.2.2.1, h.2.2.2.2 [9] [3]⟩

/-! ## Claim C5 — violation handling of the AntiDebug monitor -/

theorem handleSuspiciousActivity_spec (r ua url ts : String) (w : AntiDebugWorld)
    (hactive : w.ad.isActive = true) :
    (handleSuspiciousActivity r ua url ts w).ad.isActive = false ∧
    (handleSuspiciousActivity r ua url ts w).ad.checkInterval = none ∧
    (handleSuspiciousActivity r ua url ts w).storage.localStorage "api-key" = none ∧
    (handleSuspiciousActivity r ua url ts w).storage.localStorage "token" = none ∧
    (handleSuspiciousActivity r ua url ts w).storage.localStorage "secret" = none ∧
    (handleSuspiciousActivity r ua url ts w).storage.sessionStorage "api-key" = none ∧
    (handleSuspiciousActivity r ua url ts w).storage.sessionStorage "token" = none ∧
    (handleSuspiciousActivity r ua url ts w).storage.sessionStorage "secret" = none ∧
    (handleSuspiciousActivity r ua url ts w).storage.sensitiveGlobal = none ∧
    (handleSuspiciousActivity r ua url ts w).decryptor = w.decryptor ∧
    (handleSuspiciousActivity r ua url ts w).sent = w.sent ∧
    (handleSuspiciousActivity r ua url ts w).log =
      w.log ++ [⟨"SUSPICIOUS_ACTIVITY", r, ts, ua, url⟩] := by
  unfold handleSuspiciousActivity adStop adClearSensitiveData removeItem
  rw [hactive]
  refine ⟨rfl, rfl, ?_, ?_, ?_, ?_, ?_, ?_, rfl, rfl, rfl, rfl⟩ <;> simp

/-- C5 (amended): while the monitor is active, a tick on which any periodic
check trips (viewport/console via `checkDevTools`, native-function tamper via
`checkCodeIntegrity`, or debugger timing via `checkDebugger`) stops the
guard's interval, clears the guard's own sensitive browser storage (the
`api-key`/`token`/`secret` web-storage keys and the `__sensitive_data`
global) — but leaves the decryptor's plaintext cache, device key and
fingerprint memo untouched — and appends a diagnostic event
`{type: "SUSPICIOUS_ACTIVITY", reason, timestamp, userAgent, url}` to the
local log only; nothing is transmitted off-device. -/
theorem c5_violation_handling (d : DebugEnv) (ua url ts : String) (w : AntiDebugWorld)
    (hactive : w.ad.isActive = true)
    (htrip : checkDevTools d = true ∨ checkCodeIntegrity d = true ∨
      checkDebugger d = true) :
    (monitorTick d ua url ts w).ad.isActive = false ∧
    (monitorTick d ua url ts w).ad.checkInterval = none ∧
    (monitorTick d ua url ts w).storage.localStorage "api-key" = none ∧
    (monitorTick d ua url ts w).storage.localStorage "token" = none ∧
    (monitorTick d ua url ts w).storage.localStorage "secret" = none ∧
    (monitorTick d ua url ts w).storage.sessionStorage "api-key" = none ∧
    (monitorTick d ua url ts w).storage.sessionStorage "token" = none ∧
    (monitorTick d ua url ts w).storage.sessionStorage "secret" = none ∧
    (monitorTick d ua url ts w).storage.sensitiveGlobal = none ∧
    (monitorTick d ua url ts w).decryptor = w.decryptor ∧
    (monitorTick d ua url ts w).sent = w.sent ∧
    (∃ reason, (monitorTick d ua url ts w).log =
      w.log ++ [⟨"SUSPICIOUS_ACTIVITY", reason, ts, ua, url⟩]) := by
  have hmt : monitorTick d ua url ts w = performSecurityChecks d ua url ts w := by
    unfold monitorTick
    rw [hactive]
    rfl
  rw [hmt]
  unfold performSecurityChecks
  by_cases h1 : checkDevTools d = true
  · rw [if_pos h1]
    have h := handleSuspiciousActivity_spec "开发者工具检测" ua url ts w hactive
    exact ⟨h.1, h.2.1, h.2.2.1, h.2.2.2.1, h.2.2.2.2.1, h.2.2.2.2.2.1,
      h.2.2.2.2.2.2.1, h.2.2.2.2.2.2.2.1, h.2.2.2.2.2.2.2.2.1,
      h.2.2.2.2.2.2.2.2.2.1, h.2.2.2.2.2.2.2.2.2.2.1,
      ⟨"开发者工具检测", h.2.2.2.2.2.2.2.2.2.2.2⟩⟩
  · rw [if_neg h1]
    by_cases h2 : checkCodeIntegrity d = true
    · rw [if_pos h2]
      have h := handleSuspiciousActivity_spec "代码完整性检查失败" ua url ts w hactive
      exact ⟨h.1, h.2.1, h.2.2.1, h.2.2.2.1, h.2.2.2.2.1, h.2.2.2.2.2.1,
        h.2.2.2.2.2.2.1, h.2.2.2.2.2.2.2.1, h.2.2.2.2.2.2.2.2.1,
        h.2.2.2.2.2.2.2.2.2.1, h.2.2.2.2.2.2.2.2.2.2.1,
        ⟨"代码完整性检查失败", h.2.2.2.2.2.2.2.2.2.2.2⟩⟩
    · rw [if_neg h2]
      have h3 : checkDebugger d = true := by
        rcases htrip with h | h | h
        · exact absurd h h1
        · exact absurd h h2
        · exact h
      rw [if_pos h3]
      have h := handleSuspiciousActivity_spec "调试器检测" ua url ts w hactive
      exact ⟨h.1, h.2.1, h.2.2.1, h.2.2.2.1, h.2.2.2.2.1, h.2.2.2.2.2.1,
        h.2.2.2.2.2.2.1, h.2.2.2.2.2.2.2.1, h.2.2.2.2.2.2.2.2.1,
        h.2.2.2.2.2.2.2.2.2.1, h.2.2.2.2.2.2.2.2.2.2.1,
        ⟨"调试器检测", h.2.2.2.2.2.2.2.2.2.2.2⟩⟩

/-- A tripping environment: viewport delta of 300px. -/
def dTrip : DebugEnv := ⟨1000, 700, 600, 600, 0, 0, true, true, true, true⟩

/-- A running monitor over a decryptor holding cached plaintext, a device key
and a fingerprint memo. -/
def w0 : AntiDebugWorld :=
  ⟨⟨true, some 7⟩, ⟨fun _ => none, fun _ => none, none⟩,
    ⟨[("m1", ⟨[107], 0⟩)], some ⟨[1], [2], 3⟩, some [1]⟩, [], []⟩

/-- C5 counterexample: a tripping check does **not** wipe the decryptor's
sensitive in-memory state — after the violation is handled, the plaintext
cache, the device key and the fingerprint memo are all still present
(`AntiDebug.clearSensitiveData` touches only web storage and a global). -/
theorem c5_decryptor_not_wiped :
    checkDevTools dTrip = true ∧
    (monitorTick dTrip "ua" "url" "t" w0).decryptor.cache = [("m1", ⟨[107], 0⟩)] ∧
    (monitorTick dTrip "ua" "url" "t" w0).decryptor.deviceKey = some ⟨[1], [2], 3⟩ ∧
    (monitorTick dTrip "ua" "url" "t" w0).decryptor.fingerprintMemo = some [1] :=
  ⟨by decide, by rfl, by rfl, by rfl⟩

/-- C5 witness: the amended violation handling on the concrete tripping
world. -/
theorem c5_violation_handling_witness :
    (monitorTick dTrip "ua" "url" "t" w0).ad.isActive = false ∧
    (monitorTick dTrip "ua" "url" "t" w0).storage.localStorage "api-key" = none ∧
    (monitorTick dTrip "ua" "url" "t" w0).decryptor = w0.decryptor ∧
    (monitorTick dTrip "ua" "url" "t" w0).sent = w0.sent ∧
    (∃ reason, (monitorTick dTrip "ua" "url" "t" w0).log =
      w0.log ++ [⟨"SUSPICIOUS_ACTIVITY", reason, "t", "ua", "url"⟩]) := by
  have h := c5_violation_handling dTrip "ua" "url" "t" w0 rfl (Or.inl (by decide))
  exact ⟨h.1, h.2.2.1, h.2.2.2.2.2.2.2.2.2.1, h.2.2.2.2.2.2.2.2.2.2.1,
    h.2.2.2.2.2.2.2.2.2.2.2⟩

end HeartTrace
